import Mathlib

set_option maxRecDepth 8000
set_option maxHeartbeats 1000000

/- Verification development for the yuque-rust table-of-contents codec.

   The embedding follows src/serde.rs (modules time_serde, number_to_bool, toc_serde)
   and src/lib.rs (TocMeta, TocDocItem, TocTitleItem, judge_status_code, YuqueError).
   The external structured-text layer (serde_yaml, 0.9-style behaviour: to_string emits
   block sequences without a document marker and with a trailing newline; from_str of an
   empty document fails for a Vec target) and the external time layer (chrono) are
   modelled on the subset of their behaviour that the codec exercises: flat block
   sequences of scalar mappings, plain or single-quoted scalars, RFC3339 timestamps
   without fractional seconds.  All text processing is done structurally on lists of
   characters so that every definition evaluates inside the kernel. -/

namespace YuqueRust

/-- Characters of a string; text processing is modelled structurally on lists of characters. -/
abbrev Chars := List Char

/-- A YAML scalar value as resolved by the structured-text layer (serde_yaml):
plain scalars resolve to booleans, integers, null, or strings. -/
inductive Scalar where
  | int (n : Int)
  | str (s : String)
  | bool (b : Bool)
  | null
deriving DecidableEq, Repr

/-- One parsed YAML mapping: an ordered list of named scalar fields. -/
abbrev YamlRec := List (String × Scalar)

/-- Remove a single trailing carriage return, as Rust str::lines does for pieces
that were terminated by a newline. -/
def stripCR (l : Chars) : Chars :=
  match l.getLast? with
  | some '\r' => l.dropLast
  | _ => l

/-- Worker for rustLines: split at newline characters, accumulating the current line. -/
def rustLinesAux : Chars → Chars → List Chars
  | [], acc => if acc.isEmpty then [] else [acc.reverse]
  | '\n' :: rest, acc => stripCR acc.reverse :: rustLinesAux rest []
  | c :: rest, acc => rustLinesAux rest (c :: acc)

/-- Rust str::lines: split at line endings; a final line ending is optional and
produces no trailing empty line; a carriage return before a newline is stripped. -/
def rustLines (s : Chars) : List Chars := rustLinesAux s []

/-- Rejoin lines, appending a newline to each (the map over lines in
toc_serde::deserialize does format with a trailing newline and collects). -/
def joinLn (ls : List Chars) : Chars := (ls.map (· ++ ['\n'])).join

def isDigitCh (c : Char) : Bool := '0' ≤ c && c ≤ '9'

def digitsToNat (l : Chars) : Nat := l.foldl (fun a c => a * 10 + (c.toNat - 48)) 0

/-- Whether a plain scalar spells an integer literal. -/
def isIntLit (v : Chars) : Bool :=
  match v with
  | '-' :: rest => !rest.isEmpty && rest.all isDigitCh
  | _ => !v.isEmpty && v.all isDigitCh

def intOfChars (v : Chars) : Int :=
  match v with
  | '-' :: rest => -(digitsToNat rest : Int)
  | _ => (digitsToNat v : Int)

def charsToStr (l : Chars) : String := String.mk l

/-- Resolve one plain or single-quoted scalar the way the structured-text layer does. -/
def parseScalar (v : Chars) : Scalar :=
  if v = "true".data then .bool true
  else if v = "false".data then .bool false
  else if v = "null".data ∨ v = "~".data then .null
  else if isIntLit v then .int (intOfChars v)
  else match v with
    | '\'' :: rest =>
      match rest.getLast? with
      | some '\'' => .str (charsToStr rest.dropLast)
      | _ => .str (charsToStr v)
    | _ => .str (charsToStr v)

/-- Split a field line at the first colon-space separator. -/
def splitColonSpace : Chars → Option (Chars × Chars)
  | [] => none
  | ':' :: ' ' :: rest => some ([], rest)
  | c :: rest => (splitColonSpace rest).map (fun p => (c :: p.1, p.2))

/-- Parse the content of one mapping line into a named field. -/
def parseFieldLine (content : Chars) : Option (String × Scalar) :=
  match splitColonSpace content with
  | some (k, v) => some (charsToStr k, parseScalar v)
  | none =>
    match content.getLast? with
    | some ':' => some (charsToStr content.dropLast, Scalar.null)
    | _ => none

/-- Decode-side failure conditions.  The real code surfaces every one of these to the
caller as de::Error::custom of the structured-text or time layer message
(src/serde.rs lines 185-193); the constructors model those raw messages, which carry
no indication of which of the two sections produced them. -/
inductive YErr where
  | scan (line : String)
  | notASeq
  | multiDoc
  | duplicateField (k : String)
  | missingField (k : String)
  | invalidType (k : String) (expected : String)
  | invalidValue (k : String)
  | unknownTocEntryType (tag : String)
  | badTimestamp (s : String)
deriving DecidableEq, Repr

def isBlank (l : Chars) : Bool := l.all (fun c => c = ' ')

/-- Add one field to the record being built, rejecting duplicate keys as the
structured-text layer does. -/
def addField (r : YamlRec) (f : String × Scalar) : Except YErr YamlRec :=
  if r.any (fun p => p.1 = f.1) then .error (.duplicateField f.1) else .ok (r ++ [f])

/-- Parse the remaining lines of a block sequence of mappings.  A line starting with
dash-space opens a new record, a line starting with two spaces continues the current
record, blank lines are ignored, and anything else is a scan error. -/
def parseRecords : List Chars → YamlRec → List YamlRec → Except YErr (List YamlRec)
  | [], cur, acc => .ok (acc ++ [cur])
  | l :: rest, cur, acc =>
    if isBlank l then parseRecords rest cur acc
    else if l = "---".data then .error .multiDoc
    else match l with
      | '-' :: ' ' :: content =>
        match parseFieldLine content with
        | none => .error (.scan (charsToStr l))
        | some f => parseRecords rest [f] (acc ++ [cur])
      | ' ' :: ' ' :: content =>
        match parseFieldLine content with
        | none => .error (.scan (charsToStr l))
        | some f =>
          match addField cur f with
          | .error e => .error e
          | .ok cur2 => parseRecords rest cur2 acc
      | _ => .error (.scan (charsToStr l))

def dropBlanks (ls : List Chars) : List Chars := ls.dropWhile (fun l => isBlank l)

/-- Model of serde_yaml from_str for a vector of flat records: an empty document fails
(a unit value is not a sequence), an empty flow sequence yields the empty list, and
otherwise the text must be a block sequence of mappings.  An optional leading document
start marker is accepted; a second one fails (multiple documents are unsupported). -/
def parseYamlList (text : Chars) : Except YErr (List YamlRec) :=
  let ls := dropBlanks (rustLines text)
  let ls := match ls with
    | l :: rest => if l = "---".data then dropBlanks rest else ls
    | [] => ls
  match ls with
  | [] => .error .notASeq
  | l :: rest =>
    if l = "[]".data then
      match dropBlanks rest with
      | [] => .ok []
      | l2 :: _ => .error (.scan (charsToStr l2))
    else match l with
      | '-' :: ' ' :: content =>
        match parseFieldLine content with
        | none => .error (.scan (charsToStr l))
        | some f => parseRecords rest [f] []
      | _ => .error (.scan (charsToStr l))

/-- Look a field up by name (serde reads record fields by name, not by position). -/
def getField (r : YamlRec) (k : String) : Option Scalar :=
  (r.find? (fun p => p.1 = k)).map Prod.snd

/-- Read a required unsigned 32-bit field: present, an integer, and in u32 range. -/
def reqU32 (r : YamlRec) (k : String) : Except YErr Nat :=
  match getField r k with
  | none => .error (.missingField k)
  | some (.int n) => if 0 ≤ n ∧ n < 4294967296 then .ok n.toNat else .error (.invalidValue k)
  | some _ => .error (.invalidType k "u32")

/-- Read a required string field. -/
def reqStr (r : YamlRec) (k : String) : Except YErr String :=
  match getField r k with
  | none => .error (.missingField k)
  | some (.str s) => .ok s
  | some _ => .error (.invalidType k "a string")

/-- Read a required literal boolean field. -/
def reqBool (r : YamlRec) (k : String) : Except YErr Bool :=
  match getField r k with
  | none => .error (.missingField k)
  | some (.bool b) => .ok b
  | some _ => .error (.invalidType k "a boolean")

def d2 (a b : Char) : Option Nat :=
  if isDigitCh a && isDigitCh b then some ((a.toNat - 48) * 10 + (b.toNat - 48)) else none

def d4 (a b c d : Char) : Option Nat :=
  match d2 a b, d2 c d with
  | some hi, some lo => some (hi * 100 + lo)
  | _, _ => none

def isLeap (y : Nat) : Bool := (y % 4 = 0 && y % 100 ≠ 0) || y % 400 = 0

def daysInMonth (y m : Nat) : Nat :=
  if m = 2 then (if isLeap y then 29 else 28)
  else if m = 4 ∨ m = 6 ∨ m = 9 ∨ m = 11 then 30
  else 31

/-- Days since the Unix epoch of a civil date (the standard era-based computation,
with truncated integer division as in the reference algorithm). -/
def daysFromCivil (y : Int) (m d : Nat) : Int :=
  let yy := if m ≤ 2 then y - 1 else y
  let era := (if 0 ≤ yy then yy else yy - 399) / 400
  let yoe := yy - era * 400
  let mp := (m + 9) % 12
  let doy := ((153 * mp + 2) / 5 + d - 1 : Nat)
  let doe := yoe * 365 + yoe / 4 - yoe / 100 + (doy : Int)
  era * 146097 + doe - 719468

/-- Parse a UTC offset suffix of an RFC3339 timestamp, in seconds. -/
def parseOffset : Chars → Option Int
  | ['Z'] => some 0
  | ['z'] => some 0
  | [s, h1, h2, ':', m1, m2] =>
    match d2 h1 h2, d2 m1 m2 with
    | some h, some m =>
      if h ≤ 23 ∧ m ≤ 59 then
        if s = '+' then some ((h * 3600 + m * 60 : Nat) : Int)
        else if s = '-' then some (-((h * 3600 + m * 60 : Nat) : Int))
        else none
      else none
    | _, _ => none
  | _ => none

/-- Modelled subset of chrono DateTime::parse_from_rfc3339: a date, an uppercase T, a
time without fractional seconds, and an offset.  Returns the naive local wall-clock
time as seconds since the epoch together with the offset encoded in the string. -/
def parseRfc3339 (s : Chars) : Option (Int × Int) :=
  match s with
  | y1 :: y2 :: y3 :: y4 :: '-' :: mo1 :: mo2 :: '-' :: dd1 :: dd2 :: 'T' ::
      h1 :: h2 :: ':' :: mi1 :: mi2 :: ':' :: s1 :: s2 :: off =>
    match d4 y1 y2 y3 y4, d2 mo1 mo2, d2 dd1 dd2, d2 h1 h2, d2 mi1 mi2, d2 s1 s2 with
    | some y, some mo, some dd, some h, some mi, some ss =>
      if 1 ≤ mo ∧ mo ≤ 12 ∧ 1 ≤ dd ∧ dd ≤ daysInMonth y mo ∧ h ≤ 23 ∧ mi ≤ 59 ∧ ss ≤ 59 then
        match parseOffset off with
        | some offSec =>
          some (daysFromCivil (y : Int) mo dd * 86400 + ((h * 3600 + mi * 60 + ss : Nat) : Int),
                offSec)
        | none => none
      else none
    | _, _, _, _, _, _ => none
  | _ => none

/-- chrono DateTime in the Local timezone: the instant it denotes, as seconds since
the epoch in UTC, together with the attached local UTC offset in seconds. -/
structure LocalDateTime where
  utcSeconds : Int
  offsetSeconds : Int
deriving DecidableEq, Repr

namespace time_serde

/-- src/serde.rs time_serde::serialize: emit the timestamp as integer milliseconds
(timestamp_millis of the denoted instant). -/
def serialize (time : LocalDateTime) : Scalar := .int (time.utcSeconds * 1000)

/-- src/serde.rs time_serde::deserialize: require a string scalar, parse it as
RFC3339, then reattach the AMBIENT local offset (Local::now().offset()) to the
wall-clock time read from the string, discarding the offset written in the string.
The ambient state of Local::now() is modelled as the pair (nowMillis, tzOffset);
the code reads only the offset. -/
def deserialize (v : Scalar) (nowMillis tzOffset : Int) : Except YErr LocalDateTime :=
  match v with
  | .str s =>
    match parseRfc3339 s.data with
    | some (naiveLocal, _srcOffset) => .ok ⟨naiveLocal - tzOffset, tzOffset⟩
    | none => .error (.badTimestamp s)
  | _ => .error (.invalidType "last_updated_at" "is a string")

end time_serde

namespace number_to_bool

/-- src/serde.rs number_to_bool::serialize: true to 1 and false to 0. -/
def serialize (value : Bool) : Nat := if value then 1 else 0

/-- src/serde.rs number_to_bool::deserialize: first deserialize a u8 (failing outside
the u8 range), then map 0 to false, 1 to true, and anything else to an error. -/
def deserialize (n : Int) : Except String Bool :=
  if n < 0 ∨ 255 < n then .error "u8 out of range"
  else match n.toNat with
    | 0 => .ok false
    | 1 => .ok true
    | _ => .error "invalid value"

end number_to_bool

/-- src/lib.rs TocMeta: the metadata record; borrowed strings are modelled as String
and u32 fields as Nat checked to be below 2 to the 32 at parse time. -/
structure TocMeta where
  count : Nat
  tail_type : String
  base_version_id : Nat
  published : Bool
  max_level : Nat
  last_updated_at : LocalDateTime
  version_id : Nat
deriving DecidableEq, Repr

/-- src/lib.rs TocDocItem: a document entry; doc_id, level, id, open_window and
visible are u32. -/
structure TocDocItem where
  title : String
  uuid : String
  url : String
  prev_uuid : String
  sibling_uuid : String
  child_uuid : String
  parent_uuid : String
  doc_id : Nat
  level : Nat
  id : Nat
  open_window : Nat
  visible : Nat
deriving DecidableEq, Repr

/-- src/lib.rs TocTitleItem: a section heading entry; doc_id and id are strings. -/
structure TocTitleItem where
  title : String
  uuid : String
  url : String
  prev_uuid : String
  sibling_uuid : String
  child_uuid : String
  parent_uuid : String
  doc_id : String
  level : Nat
  id : String
  open_window : Nat
  visible : Nat
deriving DecidableEq, Repr

/-- Modelled from the spec: the TocItem entry type used by src/serde.rs toc_serde
(serde_yaml::from_str::<Vec<TocItem>> at line 190), whose declaration is not under
src/.  Per spec sections 4.1 and 6 it is a tagged union over the discriminator field
named type, with tag DOC mapping to a Doc variant of shape TocDocItem (src/lib.rs)
and tag TITLE to a Title variant of shape TocTitleItem; any other tag fails decode
with the UnknownTocEntryType condition. -/
inductive TocItem where
  | doc (item : TocDocItem)
  | title (item : TocTitleItem)
deriving DecidableEq, Repr

/-- The Toc shape destructured by src/serde.rs toc_serde (Toc with fields meta, toc). -/
structure Toc where
  meta : TocMeta
  toc : List TocItem
deriving DecidableEq, Repr

/-- Read the required last_updated_at field and run it through the time adapter. -/
def timeFieldOfRec (r : YamlRec) (nowMillis tzOffset : Int) : Except YErr LocalDateTime :=
  match getField r "last_updated_at" with
  | none => .error (.missingField "last_updated_at")
  | some v => time_serde.deserialize v nowMillis tzOffset

/-- Convert one parsed record to TocMeta by field name, with serde derive semantics:
unknown fields are ignored, missing required fields and wrong field shapes fail. -/
def tocMetaOfRec (r : YamlRec) (nowMillis tzOffset : Int) : Except YErr TocMeta := do
  let count ← reqU32 r "count"
  let tail_type ← reqStr r "tail_type"
  let base_version_id ← reqU32 r "base_version_id"
  let published ← reqBool r "published"
  let max_level ← reqU32 r "max_level"
  let last_updated_at ← timeFieldOfRec r nowMillis tzOffset
  let version_id ← reqU32 r "version_id"
  return { count := count, tail_type := tail_type, base_version_id := base_version_id,
           published := published, max_level := max_level,
           last_updated_at := last_updated_at, version_id := version_id }

/-- Convert one parsed record to TocDocItem by field name. -/
def tocDocItemOfRec (r : YamlRec) : Except YErr TocDocItem := do
  let title ← reqStr r "title"
  let uuid ← reqStr r "uuid"
  let url ← reqStr r "url"
  let prev_uuid ← reqStr r "prev_uuid"
  let sibling_uuid ← reqStr r "sibling_uuid"
  let child_uuid ← reqStr r "child_uuid"
  let parent_uuid ← reqStr r "parent_uuid"
  let doc_id ← reqU32 r "doc_id"
  let level ← reqU32 r "level"
  let id ← reqU32 r "id"
  let open_window ← reqU32 r "open_window"
  let visible ← reqU32 r "visible"
  return { title := title, uuid := uuid, url := url, prev_uuid := prev_uuid,
           sibling_uuid := sibling_uuid, child_uuid := child_uuid,
           parent_uuid := parent_uuid, doc_id := doc_id, level := level, id := id,
           open_window := open_window, visible := visible }

/-- Convert one parsed record to TocTitleItem by field name. -/
def tocTitleItemOfRec (r : YamlRec) : Except YErr TocTitleItem := do
  let title ← reqStr r "title"
  let uuid ← reqStr r "uuid"
  let url ← reqStr r "url"
  let prev_uuid ← reqStr r "prev_uuid"
  let sibling_uuid ← reqStr r "sibling_uuid"
  let child_uuid ← reqStr r "child_uuid"
  let parent_uuid ← reqStr r "parent_uuid"
  let doc_id ← reqStr r "doc_id"
  let level ← reqU32 r "level"
  let id ← reqStr r "id"
  let open_window ← reqU32 r "open_window"
  let visible ← reqU32 r "visible"
  return { title := title, uuid := uuid, url := url, prev_uuid := prev_uuid,
           sibling_uuid := sibling_uuid, child_uuid := child_uuid,
           parent_uuid := parent_uuid, doc_id := doc_id, level := level, id := id,
           open_window := open_window, visible := visible }

/-- Dispatch one entry record on its type discriminator (case-sensitive exact match):
DOC to the Doc variant, TITLE to the Title variant, anything else fails with the
UnknownTocEntryType condition rather than being dropped or defaulted. -/
def tocItemOfRec (r : YamlRec) : Except YErr TocItem :=
  match getField r "type" with
  | none => .error (.missingField "type")
  | some (.str "DOC") => (tocDocItemOfRec r).map TocItem.doc
  | some (.str "TITLE") => (tocTitleItemOfRec r).map TocItem.title
  | some (.str tag) => .error (.unknownTocEntryType tag)
  | some _ => .error (.invalidType "type" "a string")

/-- The JSON value of the toc_yml field as handed to the codec by the envelope layer:
either a string or null. -/
inductive JsonVal where
  | str (s : String)
  | null
deriving DecidableEq, Repr

/-- Outcome of running the decoder: a returned value, a returned error (the Err path
of the Rust Result), or a process panic raised by expect or unwrap. -/
inductive DeResult (α : Type) where
  | ok (a : α)
  | err (e : YErr)
  | panic (msg : String)
deriving DecidableEq, Repr

/-- The metadata section: exactly the first 9 lines of the wire string, each
rejoined with a trailing newline (toc_serde::deserialize lines 174-178). -/
def metaSection (value : String) : Chars := joinLn ((rustLines value.data).take 9)

/-- The entry-list section: everything after the first 9 lines
(toc_serde::deserialize lines 179-183). -/
def tocSection (value : String) : Chars := joinLn ((rustLines value.data).drop 9)

/-- serde_yaml::from_str::<Vec<TocMeta>>: parse the section text and convert each
record in order, with the ambient Local::now() state threaded to the time adapter. -/
def metaListOfSection (text : Chars) (nowMillis tzOffset : Int) : Except YErr (List TocMeta) := do
  let recs ← parseYamlList text
  recs.mapM (fun r => tocMetaOfRec r nowMillis tzOffset)

/-- serde_yaml::from_str::<Vec<TocItem>>: parse the section text and convert each
record in order. -/
def itemsOfSection (text : Chars) : Except YErr (List TocItem) := do
  let recs ← parseYamlList text
  recs.mapM tocItemOfRec

/-- Emit one scalar as the structured-text layer does for the values the encoder
produces: integers and booleans plainly, the empty string single-quoted, other
plain-safe strings unquoted. -/
def emitScalar : Scalar → String
  | .int n => toString n
  | .bool true => "true"
  | .bool false => "false"
  | .str "" => charsToStr ['\'', '\'']
  | .str s => s
  | .null => "null"

/-- Emit one record of a block sequence: the first field on a dash-space line, the
remaining fields indented by two spaces, every line newline-terminated. -/
def emitRec : YamlRec → String
  | [] => ""
  | f :: fs =>
    "- " ++ f.1 ++ ": " ++ emitScalar f.2 ++ "\n"
      ++ String.join (fs.map (fun g => "  " ++ g.1 ++ ": " ++ emitScalar g.2 ++ "\n"))

/-- Model of serde_yaml to_string for a vector of flat records (0.9-style: no
document marker, trailing newline; an empty vector emits an empty flow sequence). -/
def emitList (rs : List YamlRec) : String :=
  if rs.isEmpty then "[]\n" else String.join (rs.map emitRec)

/-- Serialization of TocMeta: fields in declaration order, with last_updated_at
going through time_serde::serialize (integer milliseconds). -/
def tocMetaToRec (m : TocMeta) : YamlRec :=
  [("count", .int (m.count : Int)), ("tail_type", .str m.tail_type),
   ("base_version_id", .int (m.base_version_id : Int)), ("published", .bool m.published),
   ("max_level", .int (m.max_level : Int)),
   ("last_updated_at", time_serde.serialize m.last_updated_at),
   ("version_id", .int (m.version_id : Int))]

/-- Serialization of a Doc entry: the type tag first, then fields in declaration order. -/
def tocDocItemToRec (d : TocDocItem) : YamlRec :=
  [("type", .str "DOC"), ("title", .str d.title), ("uuid", .str d.uuid),
   ("url", .str d.url), ("prev_uuid", .str d.prev_uuid),
   ("sibling_uuid", .str d.sibling_uuid), ("child_uuid", .str d.child_uuid),
   ("parent_uuid", .str d.parent_uuid), ("doc_id", .int (d.doc_id : Int)),
   ("level", .int (d.level : Int)), ("id", .int (d.id : Int)),
   ("open_window", .int (d.open_window : Int)), ("visible", .int (d.visible : Int))]

/-- Serialization of a Title entry: the type tag first, then fields in declaration
order, with doc_id and id as strings. -/
def tocTitleItemToRec (t : TocTitleItem) : YamlRec :=
  [("type", .str "TITLE"), ("title", .str t.title), ("uuid", .str t.uuid),
   ("url", .str t.url), ("prev_uuid", .str t.prev_uuid),
   ("sibling_uuid", .str t.sibling_uuid), ("child_uuid", .str t.child_uuid),
   ("parent_uuid", .str t.parent_uuid), ("doc_id", .str t.doc_id),
   ("level", .int (t.level : Int)), ("id", .str t.id),
   ("open_window", .int (t.open_window : Int)), ("visible", .int (t.visible : Int))]

def tocItemToRec : TocItem → YamlRec
  | .doc d => tocDocItemToRec d
  | .title t => tocTitleItemToRec t

namespace toc_serde

/-- src/serde.rs toc_serde::serialize: a missing TOC serializes as null
(serialize_none); otherwise the metadata record is wrapped in a one-element list,
both blocks are serialized independently as structured text, and the two strings
are joined with a single newline. -/
def serialize : Option Toc → JsonVal
  | none => .null
  | some v => .str (emitList [tocMetaToRec v.meta] ++ "\n" ++ emitList (v.toc.map tocItemToRec))

/-- Final statement of toc_serde::deserialize (serde.rs lines 190-193): parse the
entry-list section and assemble the Toc, propagating the parser error. -/
def decodeEntriesStage (meta : TocMeta) (tocText : Chars) : DeResult (Option Toc) :=
  match itemsOfSection tocText with
  | .error e => .err e
  | .ok toc => .ok (some { meta := meta, toc := toc })

/-- The pop-and-expect statement of toc_serde::deserialize (serde.rs lines 185-188):
take the LAST metadata record, panicking through expect when the list is empty. -/
def popMetaStage (metas : List TocMeta) (tocText : Chars) : DeResult (Option Toc) :=
  match metas.getLast? with
  | none => .panic "Can not fine Metadata."
  | some meta => decodeEntriesStage meta tocText

/-- Body of toc_serde::deserialize on a string value: split at the fixed 9-line
boundary and parse the metadata section, propagating its parser error. -/
def deserializeStr (value : String) (nowMillis tzOffset : Int) : DeResult (Option Toc) :=
  match metaListOfSection (metaSection value) nowMillis tzOffset with
  | .error e => .err e
  | .ok metas => popMetaStage metas (tocSection value)

/-- src/serde.rs toc_serde::deserialize: read the toc_yml JSON value as a string
(a null value fails the string visitor with an invalid-type error), split it at the
fixed 9-line boundary, parse the first 9 lines as a Vec of TocMeta and the remainder
as a Vec of TocItem, pop the LAST metadata record, and panic through expect when the
metadata list is empty.  The ambient Local::now() state is the pair
(nowMillis, tzOffset). -/
def deserialize (j : JsonVal) (nowMillis tzOffset : Int) : DeResult (Option Toc) :=
  match j with
  | .null => .err (.invalidType "toc_yml" "is a string")
  | .str value => deserializeStr value nowMillis tzOffset

end toc_serde

/-- src/lib.rs YuqueError (the variants constructible in this model; the Request
variant wraps an external transport error and is never produced by the functions
embedded here). -/
inductive YuqueError where
  | Internal (msg : String)
  | InvalidParams (url : String)
  | InvalidUserInfo (url : String)
  | NoPermission (url : String)
  | NotFound (url : String)
  | ServerException (url : String)
  | NotSupportFormat (url : String)
deriving DecidableEq, Repr

/-- src/lib.rs judge_status_code: classify an HTTP status code, erring on exactly
400, 401, 403, 404 and 500. -/
def judge_status_code (status_code : Nat) (url : String) : Except YuqueError Unit :=
  match status_code with
  | 400 => .error (.InvalidParams url)
  | 401 => .error (.InvalidUserInfo url)
  | 403 => .error (.NoPermission url)
  | 404 => .error (.NotFound url)
  | 500 => .error (.ServerException url)
  | _ => .ok ()

/-- A valid 9-line one-element metadata block in the shape the upstream API emits
(its two extra fields, type and display_level, are ignored by TocMeta), with zero
entry lines after it. -/
def meta9 : String :=
  "- type: META\n  count: 1\n  display_level: 0\n  tail_type: doc\n  base_version_id: 1\n  published: true\n  max_level: 1\n  last_updated_at: 2023-01-01T00:00:00+08:00\n  version_id: 5"

/-- The metadata value meta9 decodes to when the ambient local offset is tzOffset:
the wall-clock time written in the string is 2023-01-01T00:00:00, which is
1672531200 seconds after the epoch, and the decoder attaches the ambient offset. -/
def metaAt (tzOffset : Int) : TocMeta :=
  { count := 1, tail_type := "doc", base_version_id := 1, published := true,
    max_level := 1, last_updated_at := ⟨1672531200 - tzOffset, tzOffset⟩, version_id := 5 }

/-- A concrete validly constructed in-memory TOC value used to exercise the encoder. -/
def sampleMeta : TocMeta :=
  { count := 1, tail_type := "doc", base_version_id := 1, published := true,
    max_level := 1, last_updated_at := ⟨1672531200, 28800⟩, version_id := 5 }

def sampleDoc : TocDocItem :=
  { title := "a", uuid := "u1", url := "a", prev_uuid := "", sibling_uuid := "",
    child_uuid := "", parent_uuid := "", doc_id := 1, level := 0, id := 1,
    open_window := 0, visible := 1 }

def sampleToc : Toc := { meta := sampleMeta, toc := [.doc sampleDoc] }

/-- C9: the status-code classifier judge_status_code returns an error exactly for the
HTTP status codes 400, 401, 403, 404 and 500, each mapped to its YuqueError variant;
every other code, including 429 and 502, is classified as success, and this classifier
is the only status gate the resource-client operations apply. -/
theorem c9_judge_status_code (code : Nat) (url : String) :
    (judge_status_code code url = .ok () ↔
      code ≠ 400 ∧ code ≠ 401 ∧ code ≠ 403 ∧ code ≠ 404 ∧ code ≠ 500)
    ∧ judge_status_code 400 url = .error (.InvalidParams url)
    ∧ judge_status_code 401 url = .error (.InvalidUserInfo url)
    ∧ judge_status_code 403 url = .error (.NoPermission url)
    ∧ judge_status_code 404 url = .error (.NotFound url)
    ∧ judge_status_code 500 url = .error (.ServerException url)
    ∧ judge_status_code 429 url = .ok ()
    ∧ judge_status_code 502 url = .ok () := by
  refine ⟨?_, rfl, rfl, rfl, rfl, rfl, rfl, rfl⟩
  unfold judge_status_code
  split <;> simp_all

/-- C10: the boolean-as-integer adapter deserializes exactly 0 to false and 1 to true,
fails on every other integer input, and deserialize after serialize is the identity on
booleans. -/
theorem c10_number_to_bool :
    (∀ b : Bool, number_to_bool.deserialize ((number_to_bool.serialize b : Nat) : Int) = .ok b)
    ∧ number_to_bool.deserialize 0 = .ok false
    ∧ number_to_bool.deserialize 1 = .ok true
    ∧ (∀ n : Int, (∃ b, number_to_bool.deserialize n = .ok b) ↔ n = 0 ∨ n = 1) := by
  refine ⟨?_, rfl, rfl, ?_⟩
  · intro b; cases b <;> rfl
  · intro n
    constructor
    · rintro ⟨b, hb⟩
      unfold number_to_bool.deserialize at hb
      split at hb
      · exact Except.noConfusion hb
      · rename_i hrange
        split at hb
        · rename_i h0
          left; omega
        · rename_i h1
          right; omega
        · exact Except.noConfusion hb
    · rintro (rfl | rfl)
      · exact ⟨false, rfl⟩
      · exact ⟨true, rfl⟩

/-- C5 counterexample: encoding an absent TOC produces the explicit null wire value,
but decoding that null value FAILS with an invalid-type error from the string visitor
instead of yielding a no-TOC result, refuting the decode half of the claim. -/
theorem c5_counterexample :
    toc_serde.serialize none = JsonVal.null
    ∧ toc_serde.deserialize JsonVal.null 0 0 = .err (.invalidType "toc_yml" "is a string")
    ∧ toc_serde.deserialize JsonVal.null 0 0 ≠ .ok none := by
  refine ⟨rfl, rfl, ?_⟩
  decide

/-- C5 amended: encoding an absent TOC produces the explicit null wire representation
rather than an empty string, but decoding that null representation returns an
invalid-type error (the decoder demands a string), not a no-TOC result. -/
theorem c5_amended :
    toc_serde.serialize none = JsonVal.null
    ∧ ∀ nowMillis tzOffset : Int,
        toc_serde.deserialize JsonVal.null nowMillis tzOffset
          = .err (.invalidType "toc_yml" "is a string") :=
  ⟨rfl, fun _ _ => rfl⟩

/-- C3 counterexample: on the wire string whose metadata section parses to an empty
list, decode PANICS through expect with the message of serde.rs line 188 instead of
returning an error value, refuting both halves of the claim. -/
theorem c3_counterexample :
    toc_serde.deserialize (.str "[]") 0 0 = .panic "Can not fine Metadata."
    ∧ ∀ e, toc_serde.deserialize (.str "[]") 0 0 ≠ DeResult.err e := by
  refine ⟨rfl, ?_⟩
  intro e h
  rw [show toc_serde.deserialize (.str "[]") 0 0 = .panic "Can not fine Metadata." from rfl] at h
  exact DeResult.noConfusion h

/-- C3 amended: when the metadata section parses to an empty list the decoder panics
with the expect message of serde.rs line 188 rather than returning an error, and that
is the only situation in which this decoder panics; every other bad input comes back
as a returned error value. -/
theorem c3_amended (s : String) (nowMillis tzOffset : Int) :
    (toc_serde.deserialize (.str s) nowMillis tzOffset = .panic "Can not fine Metadata."
      ↔ metaListOfSection (metaSection s) nowMillis tzOffset = .ok [])
    ∧ ∀ msg, toc_serde.deserialize (.str s) nowMillis tzOffset = .panic msg
        → msg = "Can not fine Metadata." := by
  cases hm : metaListOfSection (metaSection s) nowMillis tzOffset with
  | error e =>
    have hd : toc_serde.deserialize (.str s) nowMillis tzOffset = .err e := by
      show toc_serde.deserializeStr s nowMillis tzOffset = .err e
      unfold toc_serde.deserializeStr; rw [hm]
    refine ⟨?_, ?_⟩
    · rw [hd]; simp
    · intro msg h; rw [hd] at h; exact DeResult.noConfusion h
  | ok metas =>
    have hd0 : toc_serde.deserialize (.str s) nowMillis tzOffset
        = toc_serde.popMetaStage metas (tocSection s) := by
      show toc_serde.deserializeStr s nowMillis tzOffset = _
      unfold toc_serde.deserializeStr; rw [hm]
    cases hl : metas.getLast? with
    | none =>
      have hnil : metas = [] := List.getLast?_eq_none_iff.mp hl
      have hd : toc_serde.deserialize (.str s) nowMillis tzOffset
          = .panic "Can not fine Metadata." := by
        rw [hd0]; unfold toc_serde.popMetaStage; rw [hl]
      refine ⟨?_, ?_⟩
      · rw [hd, hnil]; simp
      · intro msg h; rw [hd] at h; exact (DeResult.panic.inj h).symm
    | some m =>
      have hne : metas ≠ [] := by
        intro h; rw [h] at hl; exact Option.noConfusion hl
      have hd1 : toc_serde.deserialize (.str s) nowMillis tzOffset
          = toc_serde.decodeEntriesStage m (tocSection s) := by
        rw [hd0]; unfold toc_serde.popMetaStage; rw [hl]
      cases hi : itemsOfSection (tocSection s) with
      | error e =>
        have hd : toc_serde.deserialize (.str s) nowMillis tzOffset = .err e := by
          rw [hd1]; unfold toc_serde.decodeEntriesStage; rw [hi]
        refine ⟨?_, ?_⟩
        · rw [hd]
          constructor
          · intro h; exact absurd h (by simp)
          · intro h; exact absurd ((Except.ok.inj h)) hne
        · intro msg h; rw [hd] at h; exact DeResult.noConfusion h
      | ok items =>
        have hd : toc_serde.deserialize (.str s) nowMillis tzOffset
            = .ok (some { meta := m, toc := items }) := by
          rw [hd1]; unfold toc_serde.decodeEntriesStage; rw [hi]
        refine ⟨?_, ?_⟩
        · rw [hd]
          constructor
          · intro h; exact absurd h (by simp)
          · intro h; exact absurd ((Except.ok.inj h)) hne
        · intro msg h; rw [hd] at h; exact DeResult.noConfusion h

/-- C3 amended witness: the amended theorem applied at the concrete empty-metadata
input, discharging the iff with a computation. -/
theorem c3_amended_witness :
    toc_serde.deserialize (.str "[]") 0 0 = .panic "Can not fine Metadata." :=
  (c3_amended "[]" 0 0).1.mpr rfl

/-- C1: round-trip fails on the code.  Decoding the encoder output of a validly
constructed TOC value always fails: the encoder writes last_updated_at as integer
milliseconds while the decoder requires an RFC3339 string (and the encoder metadata
block occupies 8 lines, 7 fields plus the joining blank line, so the fixed 9-line
split also swallows the first entry line); hence decode(encode(x)) is an error, never
x, whatever the ambient time state. -/
theorem c1_roundtrip_fails (nowMillis tzOffset : Int) :
    toc_serde.deserialize (toc_serde.serialize (some sampleToc)) nowMillis tzOffset
      = .err (.invalidType "last_updated_at" "is a string")
    ∧ toc_serde.deserialize (toc_serde.serialize (some sampleToc)) nowMillis tzOffset
      ≠ .ok (some sampleToc) := by
  refine ⟨rfl, ?_⟩
  intro h
  rw [show toc_serde.deserialize (toc_serde.serialize (some sampleToc)) nowMillis tzOffset
      = .err (.invalidType "last_updated_at" "is a string") from rfl] at h
  exact DeResult.noConfusion h

/-- The time adapter reads only the offset component of the ambient Local::now()
state, never the instant itself. -/
lemma time_deserialize_now_irrel (v : Scalar) (n1 n2 tz : Int) :
    time_serde.deserialize v n1 tz = time_serde.deserialize v n2 tz := by
  cases v <;> rfl

/-- The time-field read does not depend on the current instant, only on the offset. -/
lemma timeFieldOfRec_now_irrel (r : YamlRec) (n1 n2 tz : Int) :
    timeFieldOfRec r n1 tz = timeFieldOfRec r n2 tz := by
  unfold timeFieldOfRec
  cases h : getField r "last_updated_at" with
  | none => rfl
  | some v => exact time_deserialize_now_irrel v n1 n2 tz

/-- Metadata conversion does not depend on the current instant, only on the offset. -/
lemma tocMetaOfRec_now_irrel (r : YamlRec) (n1 n2 tz : Int) :
    tocMetaOfRec r n1 tz = tocMetaOfRec r n2 tz := by
  unfold tocMetaOfRec
  rw [timeFieldOfRec_now_irrel r n1 n2 tz]

/-- C6 counterexample: the same toc_yml string decoded in two ambient states that
differ only in the local UTC offset (offset 0 versus offset +08:00, i.e. 28800
seconds) produces different results, because the decoder reattaches the ambient
offset of Local::now() to the parsed wall-clock time; decode is therefore not a
function of the input string alone. -/
theorem c6_counterexample :
    toc_serde.deserialize (.str (meta9 ++ "\n[]")) 0 0
      ≠ toc_serde.deserialize (.str (meta9 ++ "\n[]")) 0 28800 := by
  intro h
  rw [show toc_serde.deserialize (.str (meta9 ++ "\n[]")) 0 0
        = .ok (some { meta := metaAt 0, toc := [] }) from rfl,
      show toc_serde.deserialize (.str (meta9 ++ "\n[]")) 0 28800
        = .ok (some { meta := metaAt 28800, toc := [] }) from rfl] at h
  have h2 : metaAt 0 = metaAt 28800 := by
    have h1 := Option.some.inj (DeResult.ok.inj h)
    exact congrArg Toc.meta h1
  have h3 : (1672531200 : Int) - 0 = 1672531200 - 28800 :=
    congrArg LocalDateTime.utcSeconds (congrArg TocMeta.last_updated_at h2)
  omega

/-- C6 amended: decode is modelled with no channels other than the input value and
the ambient Local::now() state, and its result is independent of the current INSTANT
of that state — two runs at different current times but equal UTC offsets return
equal results.  The result does depend on the ambient UTC offset (see the
counterexample), so decode is a deterministic function of the input string together
with the ambient offset. -/
theorem c6_amended (j : JsonVal) (n1 n2 tz : Int) :
    toc_serde.deserialize j n1 tz = toc_serde.deserialize j n2 tz := by
  cases j with
  | null => rfl
  | str value =>
    show toc_serde.deserializeStr value n1 tz = toc_serde.deserializeStr value n2 tz
    unfold toc_serde.deserializeStr
    have h : metaListOfSection (metaSection value) n1 tz
        = metaListOfSection (metaSection value) n2 tz := by
      unfold metaListOfSection
      have hf : (fun r => tocMetaOfRec r n1 tz) = (fun r => tocMetaOfRec r n2 tz) :=
        funext fun r => tocMetaOfRec_now_irrel r n1 n2 tz
      rw [hf]
    rw [h]

/-- C2 counterexample: meta9 is a valid 9-line one-element metadata block (its
metadata section alone parses to a one-element list), yet with zero entry lines after
it decode FAILS — the empty entry-list section is rejected by the structured-text
parser — instead of decoding to that metadata plus an empty entry list. -/
theorem c2_counterexample :
    metaListOfSection (metaSection meta9) 0 0 = .ok [metaAt 0]
    ∧ toc_serde.deserialize (.str meta9) 0 0 = .err .notASeq
    ∧ ∀ t : Toc, toc_serde.deserialize (.str meta9) 0 0 ≠ .ok (some t) := by
  refine ⟨rfl, rfl, ?_⟩
  intro t h
  rw [show toc_serde.deserialize (.str meta9) 0 0 = .err .notASeq from rfl] at h
  exact DeResult.noConfusion h

/-- C2 amended: the decoder takes exactly the first 9 lines as the metadata section
and the remainder as the entry-list section regardless of content — any two wire
strings agreeing on those two line groups decode identically — but a valid 9-line
metadata block followed by zero entry lines does NOT decode successfully: the empty
entries section is a parse error, and a further line holding an empty flow sequence
is needed to decode to that metadata plus an empty entry list. -/
theorem c2_amended :
    (∀ s1 s2 : String, ∀ nowMillis tzOffset : Int,
        (rustLines s1.data).take 9 = (rustLines s2.data).take 9 →
        (rustLines s1.data).drop 9 = (rustLines s2.data).drop 9 →
        toc_serde.deserialize (.str s1) nowMillis tzOffset
          = toc_serde.deserialize (.str s2) nowMillis tzOffset)
    ∧ (∀ nowMillis tzOffset : Int,
        toc_serde.deserialize (.str meta9) nowMillis tzOffset = .err .notASeq)
    ∧ (∀ nowMillis tzOffset : Int,
        toc_serde.deserialize (.str (meta9 ++ "\n[]")) nowMillis tzOffset
          = .ok (some { meta := metaAt tzOffset, toc := [] })) := by
  refine ⟨?_, fun _ _ => rfl, fun _ _ => rfl⟩
  intro s1 s2 nowMillis tzOffset h1 h2
  show toc_serde.deserializeStr s1 nowMillis tzOffset
      = toc_serde.deserializeStr s2 nowMillis tzOffset
  unfold toc_serde.deserializeStr metaSection tocSection
  rw [h1, h2]

/-- C2 amended witness: the split-invariance part applied at a concrete string with
both section equalities discharged by computation. -/
theorem c2_amended_witness :
    toc_serde.deserialize (.str "a") 0 0 = toc_serde.deserialize (.str "a") 0 0 :=
  c2_amended.1 "a" "a" 0 0 rfl rfl

/-- C7 counterexample: a wire string whose METADATA section is malformed and one
whose ENTRIES section is malformed in the same way produce the very same decode
error value — the raw parser message — so the returned failure does not name which
of the two sections failed. -/
theorem c7_counterexample :
    toc_serde.deserialize (.str "???") 0 0 = .err (.scan "???")
    ∧ toc_serde.deserialize (.str (meta9 ++ "\n???")) 0 0 = .err (.scan "???")
    ∧ metaListOfSection (metaSection "???") 0 0 = .error (.scan "???")
    ∧ metaListOfSection (metaSection (meta9 ++ "\n???")) 0 0 = .ok [metaAt 0]
    ∧ itemsOfSection (tocSection (meta9 ++ "\n???")) = .error (.scan "???") :=
  ⟨rfl, rfl, rfl, rfl, rfl⟩

/-- C7 amended: every structural parse error in either section propagates as a decode
failure carrying the underlying parser message unchanged but with no indication of
which section failed, and a successful decode always carries the COMPLETE parse of
the entry-list section together with the popped last metadata record — never a
truncated entry list. -/
theorem c7_amended :
    (∀ s : String, ∀ nowMillis tzOffset : Int, ∀ t : Toc,
        toc_serde.deserialize (.str s) nowMillis tzOffset = .ok (some t) →
        itemsOfSection (tocSection s) = .ok t.toc
        ∧ ∃ metas, metaListOfSection (metaSection s) nowMillis tzOffset = .ok metas
            ∧ metas.getLast? = some t.meta)
    ∧ (∀ s : String, ∀ nowMillis tzOffset : Int, ∀ e,
        metaListOfSection (metaSection s) nowMillis tzOffset = .error e →
        toc_serde.deserialize (.str s) nowMillis tzOffset = .err e)
    ∧ (∀ s : String, ∀ nowMillis tzOffset : Int, ∀ metas m e,
        metaListOfSection (metaSection s) nowMillis tzOffset = .ok metas →
        metas.getLast? = some m →
        itemsOfSection (tocSection s) = .error e →
        toc_serde.deserialize (.str s) nowMillis tzOffset = .err e) := by
  refine ⟨?_, ?_, ?_⟩
  · intro s nowMillis tzOffset t h
    cases hm : metaListOfSection (metaSection s) nowMillis tzOffset with
    | error e =>
      have hd : toc_serde.deserialize (.str s) nowMillis tzOffset = .err e := by
        show toc_serde.deserializeStr s nowMillis tzOffset = .err e
        unfold toc_serde.deserializeStr; rw [hm]
      rw [hd] at h; exact DeResult.noConfusion h
    | ok metas =>
      have hd0 : toc_serde.deserialize (.str s) nowMillis tzOffset
          = toc_serde.popMetaStage metas (tocSection s) := by
        show toc_serde.deserializeStr s nowMillis tzOffset = _
        unfold toc_serde.deserializeStr; rw [hm]
      cases hl : metas.getLast? with
      | none =>
        have hd : toc_serde.deserialize (.str s) nowMillis tzOffset
            = .panic "Can not fine Metadata." := by
          rw [hd0]; unfold toc_serde.popMetaStage; rw [hl]
        rw [hd] at h; exact DeResult.noConfusion h
      | some m =>
        have hd1 : toc_serde.deserialize (.str s) nowMillis tzOffset
            = toc_serde.decodeEntriesStage m (tocSection s) := by
          rw [hd0]; unfold toc_serde.popMetaStage; rw [hl]
        cases hi : itemsOfSection (tocSection s) with
        | error e =>
          have hd : toc_serde.deserialize (.str s) nowMillis tzOffset = .err e := by
            rw [hd1]; unfold toc_serde.decodeEntriesStage; rw [hi]
          rw [hd] at h; exact DeResult.noConfusion h
        | ok items =>
          have hd : toc_serde.deserialize (.str s) nowMillis tzOffset
              = .ok (some { meta := m, toc := items }) := by
            rw [hd1]; unfold toc_serde.decodeEntriesStage; rw [hi]
          rw [hd] at h
          have h1 : (some { meta := m, toc := items } : Option Toc) = some t :=
            DeResult.ok.inj h
          have h2 : ({ meta := m, toc := items } : Toc) = t := Option.some.inj h1
          subst h2
          exact ⟨rfl, metas, rfl, hl⟩
  · intro s nowMillis tzOffset e hm
    show toc_serde.deserializeStr s nowMillis tzOffset = .err e
    unfold toc_serde.deserializeStr; rw [hm]
  · intro s nowMillis tzOffset metas m e hm hl hi
    show toc_serde.deserializeStr s nowMillis tzOffset = .err e
    unfold toc_serde.deserializeStr; rw [hm]
    show toc_serde.popMetaStage metas (tocSection s) = .err e
    unfold toc_serde.popMetaStage; rw [hl]
    show toc_serde.decodeEntriesStage m (tocSection s) = .err e
    unfold toc_serde.decodeEntriesStage; rw [hi]

/-- C7 amended witness: the metadata-error part applied at a concrete malformed
input, its hypothesis discharged by computation. -/
theorem c7_amended_witness :
    toc_serde.deserialize (.str "???") 0 0 = .err (.scan "???") :=
  c7_amended.2.1 "???" 0 0 (.scan "???") rfl

/-- C4: discriminator dispatch on the spec-modelled TocItem: a record whose type
field is exactly DOC (case-sensitive) decodes to the Doc variant and exactly TITLE
to the Title variant; every other discriminator string fails with the
UnknownTocEntryType condition; and at the decoder level such a record makes the
whole decode fail rather than being silently dropped or defaulted. -/
theorem c4_discriminator :
    (∀ r tag, getField r "type" = some (.str tag) → tag ≠ "DOC" → tag ≠ "TITLE" →
        tocItemOfRec r = .error (.unknownTocEntryType tag))
    ∧ (∀ r i, tocItemOfRec r = .ok i →
        (getField r "type" = some (.str "DOC") ∧ ∃ d, i = .doc d)
        ∨ (getField r "type" = some (.str "TITLE") ∧ ∃ t, i = .title t))
    ∧ (∀ nowMillis tzOffset : Int,
        toc_serde.deserialize (.str (meta9 ++ "\n- type: SECTION")) nowMillis tzOffset
          = .err (.unknownTocEntryType "SECTION")) := by
  refine ⟨?_, ?_, fun _ _ => rfl⟩
  · intro r tag h hd ht
    unfold tocItemOfRec
    rw [h]
    split <;> try simp_all
    rename_i hno heq
    exact hno tag heq.symm
  · intro r i h
    unfold tocItemOfRec at h
    split at h
    · exact Except.noConfusion h
    · rename_i heq
      left
      refine ⟨heq, ?_⟩
      cases hD : tocDocItemOfRec r with
      | error e => rw [hD] at h; exact Except.noConfusion h
      | ok d => rw [hD] at h; exact ⟨d, (Except.ok.inj h).symm⟩
    · rename_i heq
      right
      refine ⟨heq, ?_⟩
      cases hT : tocTitleItemOfRec r with
      | error e => rw [hT] at h; exact Except.noConfusion h
      | ok t => rw [hT] at h; exact ⟨t, (Except.ok.inj h).symm⟩
    · exact Except.noConfusion h
    · exact Except.noConfusion h

/-- C4 witness: the unknown-discriminator part applied at a concrete record with the
tag SECTION, its hypotheses discharged by computation. -/
theorem c4_discriminator_witness :
    tocItemOfRec [("type", Scalar.str "SECTION")] = .error (.unknownTocEntryType "SECTION") :=
  c4_discriminator.1 [("type", Scalar.str "SECTION")] "SECTION" rfl (by decide) (by decide)

/-- A record carrying every TocMeta field correctly typed. -/
def metaRecGood : YamlRec :=
  [("count", .int 1), ("tail_type", .str "doc"), ("base_version_id", .int 1),
   ("published", .bool true), ("max_level", .int 1),
   ("last_updated_at", .str "2023-01-01T00:00:00+08:00"), ("version_id", .int 5)]

/-- metaRecGood with the published flag given as the NUMBER 1 instead of a boolean. -/
def metaRecNumBool : YamlRec :=
  [("count", .int 1), ("tail_type", .str "doc"), ("base_version_id", .int 1),
   ("published", .int 1), ("max_level", .int 1),
   ("last_updated_at", .str "2023-01-01T00:00:00+08:00"), ("version_id", .int 5)]

/-- A record carrying every Doc-variant field correctly typed (doc_id and id numeric). -/
def docRecGood : YamlRec :=
  [("type", .str "DOC"), ("title", .str "a"), ("uuid", .str "u"), ("url", .str "a"),
   ("prev_uuid", .str ""), ("sibling_uuid", .str ""), ("child_uuid", .str ""),
   ("parent_uuid", .str ""), ("doc_id", .int 7), ("level", .int 0), ("id", .int 9),
   ("open_window", .int 0), ("visible", .int 1)]

/-- docRecGood with doc_id given as a string instead of a number. -/
def docRecStrId : YamlRec :=
  [("type", .str "DOC"), ("title", .str "a"), ("uuid", .str "u"), ("url", .str "a"),
   ("prev_uuid", .str ""), ("sibling_uuid", .str ""), ("child_uuid", .str ""),
   ("parent_uuid", .str ""), ("doc_id", .str "7"), ("level", .int 0), ("id", .int 9),
   ("open_window", .int 0), ("visible", .int 1)]

/-- A record carrying every Title-variant field correctly typed (doc_id and id strings). -/
def titleRecGood : YamlRec :=
  [("type", .str "TITLE"), ("title", .str "t"), ("uuid", .str "v"), ("url", .str "#"),
   ("prev_uuid", .str ""), ("sibling_uuid", .str ""), ("child_uuid", .str ""),
   ("parent_uuid", .str "u"), ("doc_id", .str "d1"), ("level", .int 1),
   ("id", .str "i1"), ("open_window", .int 0), ("visible", .int 1)]

/-- titleRecGood with doc_id given as a number instead of a string. -/
def titleRecIntId : YamlRec :=
  [("type", .str "TITLE"), ("title", .str "t"), ("uuid", .str "v"), ("url", .str "#"),
   ("prev_uuid", .str ""), ("sibling_uuid", .str ""), ("child_uuid", .str ""),
   ("parent_uuid", .str "u"), ("doc_id", .int 7), ("level", .int 1),
   ("id", .str "i1"), ("open_window", .int 0), ("visible", .int 1)]

/-- C8: record fields are matched by name and not by position (two records with the
same field lookup convert identically); the numeric fields are unsigned 32-bit
integers (the top of the u32 range is accepted, one past it and negative values are
rejected); published must be a literal boolean, and a numeric flag is rejected; and
doc_id is an unsigned integer in the Doc variant but a string in the Title variant,
each variant rejecting the shape of the other. -/
theorem c8_field_semantics :
    (∀ r1 r2 : YamlRec, ∀ nowMillis tzOffset : Int,
        (∀ k, getField r1 k = getField r2 k) →
        tocMetaOfRec r1 nowMillis tzOffset = tocMetaOfRec r2 nowMillis tzOffset)
    ∧ (∀ r1 r2 : YamlRec, (∀ k, getField r1 k = getField r2 k) →
        tocItemOfRec r1 = tocItemOfRec r2)
    ∧ tocMetaOfRec metaRecGood 0 0 = .ok (metaAt 0)
    ∧ tocMetaOfRec metaRecNumBool 0 0 = .error (.invalidType "published" "a boolean")
    ∧ tocItemOfRec docRecGood
        = .ok (.doc { title := "a", uuid := "u", url := "a", prev_uuid := "",
                      sibling_uuid := "", child_uuid := "", parent_uuid := "",
                      doc_id := 7, level := 0, id := 9, open_window := 0, visible := 1 })
    ∧ tocItemOfRec docRecStrId = .error (.invalidType "doc_id" "u32")
    ∧ tocItemOfRec titleRecGood
        = .ok (.title { title := "t", uuid := "v", url := "#", prev_uuid := "",
                        sibling_uuid := "", child_uuid := "", parent_uuid := "u",
                        doc_id := "d1", level := 1, id := "i1", open_window := 0,
                        visible := 1 })
    ∧ tocItemOfRec titleRecIntId = .error (.invalidType "doc_id" "a string")
    ∧ reqU32 [("count", .int 4294967295)] "count" = .ok 4294967295
    ∧ reqU32 [("count", .int 4294967296)] "count" = .error (.invalidValue "count")
    ∧ reqU32 [("count", .int (-1))] "count" = .error (.invalidValue "count") := by
  refine ⟨?_, ?_, rfl, rfl, rfl, rfl, rfl, rfl, rfl, rfl, rfl⟩
  · intro r1 r2 nowMillis tzOffset h
    unfold tocMetaOfRec reqU32 reqStr reqBool timeFieldOfRec
    simp only [h]
  · intro r1 r2 h
    unfold tocItemOfRec tocDocItemOfRec tocTitleItemOfRec reqU32 reqStr
    simp only [h]

/-- C8 witness: the by-name part applied at concrete records, its lookup-equality
hypothesis discharged pointwise. -/
theorem c8_field_semantics_witness :
    tocMetaOfRec [] 0 0 = tocMetaOfRec [] 0 0 :=
  c8_field_semantics.1 [] [] 0 0 (fun _ => rfl)

end YuqueRust
